import Mathlib

/-!
Verification of the NITS RDL deployment pipeline orchestration core.

The definitions below are a shallow embedding of the step-retry
orchestration engine of rdl_deployment_pipeline.py together with the
exit-code discipline of both command-line entry points.  Subprocess
execution is modelled by an oracle assigning an outcome (exit code,
timeout, or generic exception) to every (attempt, command-index) pair;
the control flow of the Python source is translated directly.
-/

/-- Pipeline execution stages, mirroring the PipelineStage enum. -/
inductive PipelineStage where
  | setup
  | validate
  | build
  | test
  | deploy
  | monitor
  deriving DecidableEq, Repr

/-- Deployment environments, mirroring the PipelineEnvironment enum. -/
inductive PipelineEnvironment where
  | development
  | staging
  | production
  deriving DecidableEq, Repr

/-- The string value of an environment member. -/
def PipelineEnvironment.value : PipelineEnvironment → String
  | .development => "development"
  | .staging => "staging"
  | .production => "production"

/-- The result of applying str.title to the environment value string. -/
def PipelineEnvironment.titleValue : PipelineEnvironment → String
  | .development => "Development"
  | .staging => "Staging"
  | .production => "Production"

/-- Configuration for pipeline execution, mirroring PipelineConfig. -/
structure PipelineConfig where
  environment : PipelineEnvironment := PipelineEnvironment.development
  auto_deploy : Bool := false
  run_tests : Bool := true
  notify_on_failure : Bool := true
  slack_webhook : Option String := none
  github_token : Option String := none
  parallel_jobs : Nat := 2
  timeout_minutes : Nat := 30
  artifacts_retention_days : Nat := 30
  deriving DecidableEq, Repr

/-- Individual pipeline job configuration, mirroring PipelineJob.
Environment dictionaries are modelled as association lists. -/
structure PipelineJob where
  name : String
  stage : PipelineStage
  commands : List String
  environment : List (String × String)
  depends_on : Option (List String) := none
  timeout_minutes : Nat := 15
  retry_count : Nat := 2
  deriving DecidableEq, Repr

/-- Outcome of one subprocess.run call, as seen by execute_job: a
completed process with an exit code, a TimeoutExpired exception, or a
generic exception. -/
inductive CmdOutcome where
  | exitCode (code : Int)
  | timeout
  | exc
  deriving DecidableEq, Repr

/-- Observable events of a job execution: a subprocess spawn carrying
the attempt number, the command index within the attempt, the command
string and the environment handed to subprocess.run; or a time.sleep
of the given number of seconds. -/
inductive Ev where
  | run (attempt : Nat) (cmdIdx : Nat) (cmd : String) (env : List (String × String))
  | sleep (secs : Nat)
  deriving DecidableEq, Repr

/-- Lookup in a Python-dict association list: first matching key wins
(keys are unique by construction of dictInsert). -/
def dictLookup {β : Type} (k : String) : List (String × β) → Option β
  | [] => none
  | p :: rest => if p.1 = k then some p.2 else dictLookup k rest

/-- Python dict assignment d[k] = v: overwrite in place if the key is
present, otherwise append at the end (insertion order preserved). -/
def dictInsert {β : Type} (k : String) (v : β) : List (String × β) → List (String × β)
  | [] => [(k, v)]
  | p :: rest => if p.1 = k then (k, v) :: rest else p :: dictInsert k v rest

/-- Python dict merge of os.environ with the job environment overrides:
keys of the ambient environment keep their position with values
overridden where the job environment has the key, then the remaining
job-environment keys follow in order. -/
def mergeEnv (osEnv jobEnv : List (String × String)) : List (String × String) :=
  osEnv.map (fun p => (p.1, (dictLookup p.1 jobEnv).getD p.2)) ++
    jobEnv.filter (fun q => (dictLookup q.1 osEnv).isNone)

/-- How one attempt of the inner command loop of execute_job ends. -/
inductive AttemptOutcome where
  | ok
  | failed
  | timedOut
  | excRaised
  deriving DecidableEq, Repr

/-- The inner command loop of execute_job for one attempt: run each
command in order; a non-zero exit status marks the attempt failed and
skips the remaining commands; a TimeoutExpired or generic exception
propagates out of the loop. -/
def runCmds (env : List (String × String)) (beh : Nat → CmdOutcome) (attempt : Nat) :
    Nat → List String → AttemptOutcome × List Ev
  | _, [] => (AttemptOutcome.ok, [])
  | i, c :: rest =>
    match beh i with
    | CmdOutcome.exitCode code =>
      if code ≠ 0 then
        (AttemptOutcome.failed, [Ev.run attempt i c env])
      else
        let r := runCmds env beh attempt (i + 1) rest
        (r.1, Ev.run attempt i c env :: r.2)
    | CmdOutcome.timeout => (AttemptOutcome.timedOut, [Ev.run attempt i c env])
    | CmdOutcome.exc => (AttemptOutcome.excRaised, [Ev.run attempt i c env])

/-- One full attempt of the command sequence of a job, spawning each
subprocess with the job environment merged over the ambient one. -/
def runAttempt (job : PipelineJob) (osEnv : List (String × String))
    (beh : Nat → Nat → CmdOutcome) (attempt : Nat) : AttemptOutcome × List Ev :=
  runCmds (mergeEnv osEnv job.environment) (beh attempt) attempt 0 job.commands

/-- Summary of one execute_job call: returned boolean, number of
attempt iterations performed, the outcome of the final attempt, and
the event trace. -/
structure JobExec where
  ok : Bool
  attempts : Nat
  finalOutcome : AttemptOutcome
  events : List Ev
  deriving DecidableEq, Repr

/-- The attempt loop of execute_job starting at a given attempt number
with rem retries still allowed (initially rem = retry_count, matching
for attempt in range(retry_count + 1) with the sleep guard
attempt < retry_count).  A successful attempt returns immediately; a
failed attempt sleeps 2 seconds and retries while budget remains; a
TimeoutExpired or generic exception escapes the whole loop at once. -/
def execFrom (job : PipelineJob) (osEnv : List (String × String))
    (beh : Nat → Nat → CmdOutcome) : Nat → Nat → JobExec
  | attempt, rem =>
    let r := runAttempt job osEnv beh attempt
    match r.1 with
    | AttemptOutcome.ok => ⟨true, 1, AttemptOutcome.ok, r.2⟩
    | AttemptOutcome.failed =>
      match rem with
      | 0 => ⟨false, 1, AttemptOutcome.failed, r.2⟩
      | rem' + 1 =>
        let rest := execFrom job osEnv beh (attempt + 1) rem'
        ⟨rest.ok, rest.attempts + 1, rest.finalOutcome, r.2 ++ Ev.sleep 2 :: rest.events⟩
    | AttemptOutcome.timedOut => ⟨false, 1, AttemptOutcome.timedOut, r.2⟩
    | AttemptOutcome.excRaised => ⟨false, 1, AttemptOutcome.excRaised, r.2⟩

/-- Orchestrator state visible to execute_job: the ambient process
environment os.environ and the job_results dictionary. -/
structure OrchState where
  os_environ : List (String × String)
  job_results : List (String × Bool)
  deriving DecidableEq, Repr

/-- NITSPipelineOrchestrator.execute_job: run the attempt loop, record
the boolean result under the job name in job_results, and return it.
The ambient environment is threaded through unchanged because the
source merges it into a fresh dictionary for the subprocess only. -/
def execute_job (st : OrchState) (job : PipelineJob) (beh : Nat → Nat → CmdOutcome) :
    JobExec × OrchState :=
  let e := execFrom job st.os_environ beh 0 job.retry_count
  (e, ⟨st.os_environ, dictInsert job.name e.ok st.job_results⟩)

/-- The boolean verdict of one execute_job call, which depends only on
the ambient environment, the job and the outcome oracle. -/
def jobOk (osEnv : List (String × String)) (job : PipelineJob)
    (beh : Nat → Nat → CmdOutcome) : Bool :=
  (execFrom job osEnv beh 0 job.retry_count).ok

/-- The Environment Validation job built by run_pipeline when the
validate stage is requested. -/
def validationJob : PipelineJob :=
  { name := "Environment Validation"
    stage := PipelineStage.validate
    commands := ["python nits_rdl_deployment.py --help"]
    environment := [] }

/-- The Build Application job built by run_pipeline when the build
stage is requested. -/
def buildApplicationJob : PipelineJob :=
  { name := "Build Application"
    stage := PipelineStage.build
    commands :=
      ["rm -rf node_modules/.vite-temp",
       "npm ci --include=dev",
       "npm run build"]
    environment := [("NODE_ENV", "production")] }

/-- The Deploy job built by run_pipeline when the deploy stage is
requested and auto_deploy is set. -/
def deployJob (env : PipelineEnvironment) : PipelineJob :=
  { name := "Deploy to " ++ env.titleValue
    stage := PipelineStage.deploy
    commands :=
      ["python rdl_deployment_pipeline.py --environment " ++ env.value ++ " --deploy-artifacts"]
    environment := [("NODE_ENV", "production")]
    timeout_minutes := 5 }

/-- The job list assembled at the top of run_pipeline from the
requested stage list and the configuration: a validate job when the
validate stage is requested, a build job when the build stage is
requested, and a deploy job only when the deploy stage is requested
and config.auto_deploy holds. -/
def buildJobs (config : PipelineConfig) (stages : List PipelineStage) : List PipelineJob :=
  (if PipelineStage.validate ∈ stages then [validationJob] else []) ++
    (if PipelineStage.build ∈ stages then [buildApplicationJob] else []) ++
      (if PipelineStage.deploy ∈ stages ∧ config.auto_deploy = true then
        [deployJob config.environment] else [])

/-- The job loop of run_pipeline: execute each job in order, counting
successes, and break out of the loop at the first job whose runner
returns false.  The oracle beh assigns a per-job outcome function by
job position. -/
def runJobsLoop (beh : Nat → Nat → Nat → CmdOutcome) :
    List PipelineJob → Nat → Nat → OrchState → Nat × OrchState
  | [], _, succ, st => (succ, st)
  | job :: rest, i, succ, st =>
    let r := execute_job st job (beh i)
    if r.1.ok then runJobsLoop beh rest (i + 1) (succ + 1) r.2
    else (succ, r.2)

/-- Result of one run_pipeline call: the returned boolean verdict, the
successful_jobs counter, the total_jobs count, and the orchestrator
state after the run. -/
structure PipelineRunOut where
  overall : Bool
  successCount : Nat
  totalJobs : Nat
  state : OrchState
  deriving DecidableEq, Repr

/-- NITSPipelineOrchestrator.run_pipeline: build the job list for the
requested stages, execute jobs sequentially stopping at the first
failure, and report success exactly when the number of successful jobs
equals the number of planned jobs. -/
def run_pipeline (config : PipelineConfig) (stages : List PipelineStage)
    (beh : Nat → Nat → Nat → CmdOutcome) (st : OrchState) : PipelineRunOut :=
  ⟨decide ((runJobsLoop beh (buildJobs config stages) 0 0 st).1 = (buildJobs config stages).length),
   (runJobsLoop beh (buildJobs config stages) 0 0 st).1,
   (buildJobs config stages).length,
   (runJobsLoop beh (buildJobs config stages) 0 0 st).2⟩

/-- The fields of the pipeline status report that depend on the
recorded job results. -/
structure StatusReport where
  pipeline_version : String
  job_results : List (String × Bool)
  success_rate : ℚ
  total_jobs : Nat
  deriving DecidableEq, Repr

/-- NITSPipelineOrchestrator.generate_pipeline_status_report: the
success rate is the number of true entries divided by
max(total number of entries, 1). -/
def generate_pipeline_status_report (results : List (String × Bool)) : StatusReport :=
  { pipeline_version := "1.0.0"
    job_results := results
    success_rate :=
      ((results.filter (fun p => p.2)).length : ℚ) / ((max results.length 1 : Nat) : ℚ)
    total_jobs := results.length }

/-- An exception escaping a Python operation: a KeyboardInterrupt or
any other exception. -/
inductive PyErr where
  | keyboardInterrupt
  | exception
  deriving DecidableEq, Repr

/-- The mutually exclusive modes of the rdl_deployment_pipeline.py
command line. -/
inductive RdlMode where
  | createWorkflow
  | validateOnly
  | deployArtifacts
  | fullPipeline
  deriving DecidableEq, Repr

/-- The modes of the nits_rdl_deployment.py command line. -/
inductive NitsMode where
  | buildOnly
  | fullDeploy
  deriving DecidableEq, Repr

/-- The try/except wrapper shared by both main functions: the body
computes an exit code via sys.exit, a KeyboardInterrupt handler exits
with 0, and a generic exception handler exits with 1. -/
def exitFromTry (body : Except PyErr Nat) : Nat :=
  match body with
  | Except.ok code => code
  | Except.error PyErr.keyboardInterrupt => 0
  | Except.error PyErr.exception => 1

/-- Shared tail of both main functions: bind the boolean outcome of
the selected operation and exit with 0 on true, 1 on false. -/
def mainExitOf (r : Except PyErr Bool) : Nat :=
  exitFromTry (do
    let success ← r
    pure (if success then 0 else 1))

/-- The boolean outcome of the operation selected by the rdl main mode:
the first three modes run one orchestrator call; the full pipeline mode
runs the pipeline and then writes the status report file, whose own
failure propagates as an exception. -/
def rdlOpResult (mode : RdlMode) (op : Except PyErr Bool) (rw : Except PyErr Unit) :
    Except PyErr Bool :=
  match mode with
  | RdlMode.createWorkflow => op
  | RdlMode.validateOnly => op
  | RdlMode.deployArtifacts => op
  | RdlMode.fullPipeline => do
    let s ← op
    let _ ← rw
    pure s

/-- Process exit code of rdl_deployment_pipeline.py main. -/
def rdl_main_exit (mode : RdlMode) (op : Except PyErr Bool) (rw : Except PyErr Unit) : Nat :=
  mainExitOf (rdlOpResult mode op rw)

/-- The boolean outcome of the operation selected by the nits main
mode: build-only mode is the short-circuit conjunction of validation,
dependency installation and build; full-deploy mode is the deploy
call. -/
def nitsOpResult (mode : NitsMode) (v i b d : Except PyErr Bool) : Except PyErr Bool :=
  match mode with
  | NitsMode.buildOnly => do
    let hv ← v
    if hv then do
      let hi ← i
      if hi then b else pure false
    else pure false
  | NitsMode.fullDeploy => d

/-- Process exit code of nits_rdl_deployment.py main. -/
def nits_main_exit (mode : NitsMode) (v i b d : Except PyErr Bool) : Nat :=
  mainExitOf (nitsOpResult mode v i b d)

/-- Predicate on events used for the environment frame property: every
subprocess spawn event carries exactly the given environment. -/
def evIsSpawnWith (envE : List (String × String)) : Ev → Prop
  | Ev.run _ _ _ e => e = envE
  | Ev.sleep _ => True

/-- Predicate on events: every subprocess spawn event belongs to an
attempt with index at most the given bound. -/
def evAttemptLe (bound : Nat) : Ev → Prop
  | Ev.run a _ _ _ => a ≤ bound
  | Ev.sleep _ => True

/-- The subprocess spawn events of one attempt over a command list,
starting at a given command index. -/
def evRunList (a : Nat) (env : List (String × String)) : Nat → List String → List Ev
  | _, [] => []
  | i, c :: rest => Ev.run a i c env :: evRunList a env (i + 1) rest

/-- Length of the success prefix of the job loop: the number of jobs
executed successfully before the loop stops, all jobs counting as
successful when none fails. -/
def okPrefixLen (osEnv : List (String × String)) (beh : Nat → Nat → Nat → CmdOutcome) :
    List PipelineJob → Nat → Nat
  | [], _ => 0
  | job :: rest, i =>
    if jobOk osEnv job (beh i) then okPrefixLen osEnv beh rest (i + 1) + 1 else 0

/-- The job_results dictionary produced by the job loop. -/
def loopResults (osEnv : List (String × String)) (beh : Nat → Nat → Nat → CmdOutcome) :
    List PipelineJob → Nat → List (String × Bool) → List (String × Bool)
  | [], _, res => res
  | job :: rest, i, res =>
    if jobOk osEnv job (beh i) then
      loopResults osEnv beh rest (i + 1) (dictInsert job.name true res)
    else dictInsert job.name false res

theorem dictLookup_dictInsert_self {β : Type} (k : String) (v : β) (l : List (String × β)) :
    dictLookup k (dictInsert k v l) = some v := by
  induction l with
  | nil => simp [dictInsert, dictLookup]
  | cons p rest ih =>
    by_cases h : p.1 = k
    · simp [dictInsert, dictLookup, h]
    · simp [dictInsert, dictLookup, h, ih]

theorem dictLookup_dictInsert_ne {β : Type} (n k : String) (v : β) (l : List (String × β))
    (h : n ≠ k) : dictLookup n (dictInsert k v l) = dictLookup n l := by
  induction l with
  | nil => simp [dictInsert, dictLookup, Ne.symm h]
  | cons p rest ih =>
    by_cases hp : p.1 = k
    · simp [dictInsert, dictLookup, hp, h, Ne.symm h]
    · by_cases hn : p.1 = n
      · simp [dictInsert, dictLookup, hp, hn, h, Ne.symm h]
      · simp [dictInsert, dictLookup, hp, hn, ih]

theorem dictInsert_length_fresh {β : Type} (k : String) (v : β) (l : List (String × β))
    (h : dictLookup k l = none) : (dictInsert k v l).length = l.length + 1 := by
  induction l with
  | nil => simp [dictInsert]
  | cons p rest ih =>
    by_cases hp : p.1 = k
    · simp [dictLookup, hp] at h
    · simp [dictLookup, hp] at h
      simp [dictInsert, hp, ih h]

theorem mem_dictInsert {β : Type} (p : String × β) (k : String) (v : β) (l : List (String × β))
    (h : p ∈ dictInsert k v l) : p = (k, v) ∨ p ∈ l := by
  induction l with
  | nil => simp [dictInsert] at h; simp [h]
  | cons q rest ih =>
    by_cases hq : q.1 = k
    · simp [dictInsert, hq] at h
      rcases h with h | h
      · exact Or.inl h
      · exact Or.inr (List.mem_cons_of_mem _ h)
    · simp [dictInsert, hq] at h
      rcases h with h | h
      · exact Or.inr (by simp [h])
      · rcases ih h with h' | h'
        · exact Or.inl h'
        · exact Or.inr (List.mem_cons_of_mem _ h')

theorem mem_dictInsert_self {β : Type} (k : String) (v : β) (l : List (String × β)) :
    (k, v) ∈ dictInsert k v l := by
  induction l with
  | nil => simp [dictInsert]
  | cons q rest ih =>
    by_cases hq : q.1 = k
    · simp [dictInsert, hq]
    · simp [dictInsert, hq]
      exact Or.inr ih

theorem execFrom_eq_ok (job : PipelineJob) (osEnv : List (String × String))
    (beh : Nat → Nat → CmdOutcome) (a rem : Nat)
    (h : (runAttempt job osEnv beh a).1 = AttemptOutcome.ok) :
    execFrom job osEnv beh a rem =
      ⟨true, 1, AttemptOutcome.ok, (runAttempt job osEnv beh a).2⟩ := by
  cases rem <;> (rw [execFrom]; simp only [h])

theorem execFrom_eq_failed_zero (job : PipelineJob) (osEnv : List (String × String))
    (beh : Nat → Nat → CmdOutcome) (a : Nat)
    (h : (runAttempt job osEnv beh a).1 = AttemptOutcome.failed) :
    execFrom job osEnv beh a 0 =
      ⟨false, 1, AttemptOutcome.failed, (runAttempt job osEnv beh a).2⟩ := by
  rw [execFrom]
  simp only [h]

theorem execFrom_eq_failed_succ (job : PipelineJob) (osEnv : List (String × String))
    (beh : Nat → Nat → CmdOutcome) (a rem : Nat)
    (h : (runAttempt job osEnv beh a).1 = AttemptOutcome.failed) :
    execFrom job osEnv beh a (rem + 1) =
      ⟨(execFrom job osEnv beh (a + 1) rem).ok,
       (execFrom job osEnv beh (a + 1) rem).attempts + 1,
       (execFrom job osEnv beh (a + 1) rem).finalOutcome,
       (runAttempt job osEnv beh a).2 ++ Ev.sleep 2 :: (execFrom job osEnv beh (a + 1) rem).events⟩ := by
  rw [execFrom]
  simp only [h]

theorem execFrom_eq_timedOut (job : PipelineJob) (osEnv : List (String × String))
    (beh : Nat → Nat → CmdOutcome) (a rem : Nat)
    (h : (runAttempt job osEnv beh a).1 = AttemptOutcome.timedOut) :
    execFrom job osEnv beh a rem =
      ⟨false, 1, AttemptOutcome.timedOut, (runAttempt job osEnv beh a).2⟩ := by
  cases rem <;> (rw [execFrom]; simp only [h])

theorem execFrom_eq_excRaised (job : PipelineJob) (osEnv : List (String × String))
    (beh : Nat → Nat → CmdOutcome) (a rem : Nat)
    (h : (runAttempt job osEnv beh a).1 = AttemptOutcome.excRaised) :
    execFrom job osEnv beh a rem =
      ⟨false, 1, AttemptOutcome.excRaised, (runAttempt job osEnv beh a).2⟩ := by
  cases rem <;> (rw [execFrom]; simp only [h])

theorem runAttempt_failed_of_alwaysFail (job : PipelineJob) (osEnv : List (String × String))
    (beh : Nat → Nat → CmdOutcome) (a : Nat) (hne : job.commands ≠ [])
    (hf : ∀ i, ∃ k, beh a i = CmdOutcome.exitCode k ∧ k ≠ 0) :
    (runAttempt job osEnv beh a).1 = AttemptOutcome.failed := by
  unfold runAttempt
  cases hc : job.commands with
  | nil => exact absurd hc hne
  | cons c rest =>
    obtain ⟨k, hk, hk0⟩ := hf 0
    simp [runCmds, hk, hk0]

theorem execFrom_all_fail (job : PipelineJob) (osEnv : List (String × String))
    (beh : Nat → Nat → CmdOutcome)
    (hf : ∀ a', (runAttempt job osEnv beh a').1 = AttemptOutcome.failed) :
    ∀ rem a, (execFrom job osEnv beh a rem).ok = false ∧
      (execFrom job osEnv beh a rem).attempts = rem + 1 ∧
      (execFrom job osEnv beh a rem).finalOutcome = AttemptOutcome.failed := by
  intro rem
  induction rem with
  | zero =>
    intro a
    rw [execFrom_eq_failed_zero _ _ _ _ (hf a)]
    exact ⟨rfl, rfl, rfl⟩
  | succ n ih =>
    intro a
    rw [execFrom_eq_failed_succ _ _ _ _ _ (hf a)]
    obtain ⟨h1, h2, h3⟩ := ih (a + 1)
    simp [h1, h2, h3]

theorem runCmds_events_spawnWith (env : List (String × String)) (beh : Nat → CmdOutcome)
    (a : Nat) : ∀ (cs : List String) (i : Nat) (ev : Ev),
    ev ∈ (runCmds env beh a i cs).2 → evIsSpawnWith env ev := by
  intro cs
  induction cs with
  | nil => intro i ev h; simp [runCmds] at h
  | cons c rest ih =>
    intro i ev h
    cases hb : beh i with
    | exitCode k =>
      by_cases hk : k = 0
      · simp [runCmds, hb, hk] at h
        rcases h with h | h
        · simp [h, evIsSpawnWith]
        · exact ih (i + 1) ev h
      · simp [runCmds, hb, hk] at h
        simp [h, evIsSpawnWith]
    | timeout =>
      simp [runCmds, hb] at h
      simp [h, evIsSpawnWith]
    | exc =>
      simp [runCmds, hb] at h
      simp [h, evIsSpawnWith]

theorem runCmds_events_attemptLe (env : List (String × String)) (beh : Nat → CmdOutcome)
    (a : Nat) : ∀ (cs : List String) (i : Nat) (ev : Ev),
    ev ∈ (runCmds env beh a i cs).2 → ∀ bound, a ≤ bound → evAttemptLe bound ev := by
  intro cs
  induction cs with
  | nil => intro i ev h; simp [runCmds] at h
  | cons c rest ih =>
    intro i ev h bound hb'
    cases hb : beh i with
    | exitCode k =>
      by_cases hk : k = 0
      · simp [runCmds, hb, hk] at h
        rcases h with h | h
        · simp [h, evAttemptLe, hb']
        · exact ih (i + 1) ev h bound hb'
      · simp [runCmds, hb, hk] at h
        simp [h, evAttemptLe, hb']
    | timeout =>
      simp [runCmds, hb] at h
      simp [h, evAttemptLe, hb']
    | exc =>
      simp [runCmds, hb] at h
      simp [h, evAttemptLe, hb']

theorem runAttempt_events_spawnWith (job : PipelineJob) (osEnv : List (String × String))
    (beh : Nat → Nat → CmdOutcome) (a : Nat) (ev : Ev)
    (h : ev ∈ (runAttempt job osEnv beh a).2) :
    evIsSpawnWith (mergeEnv osEnv job.environment) ev :=
  runCmds_events_spawnWith _ _ _ _ _ _ h

theorem runAttempt_events_attemptLe (job : PipelineJob) (osEnv : List (String × String))
    (beh : Nat → Nat → CmdOutcome) (a : Nat) (ev : Ev)
    (h : ev ∈ (runAttempt job osEnv beh a).2) (bound : Nat) (hb : a ≤ bound) :
    evAttemptLe bound ev :=
  runCmds_events_attemptLe _ _ _ _ _ _ h bound hb

theorem execFrom_events_spawnWith (job : PipelineJob) (osEnv : List (String × String))
    (beh : Nat → Nat → CmdOutcome) :
    ∀ (rem a : Nat) (ev : Ev), ev ∈ (execFrom job osEnv beh a rem).events →
      evIsSpawnWith (mergeEnv osEnv job.environment) ev := by
  intro rem
  induction rem with
  | zero =>
    intro a ev h
    cases ho : (runAttempt job osEnv beh a).1 with
    | ok =>
      rw [execFrom_eq_ok _ _ _ _ _ ho] at h
      exact runAttempt_events_spawnWith _ _ _ _ _ h
    | failed =>
      rw [execFrom_eq_failed_zero _ _ _ _ ho] at h
      exact runAttempt_events_spawnWith _ _ _ _ _ h
    | timedOut =>
      rw [execFrom_eq_timedOut _ _ _ _ _ ho] at h
      exact runAttempt_events_spawnWith _ _ _ _ _ h
    | excRaised =>
      rw [execFrom_eq_excRaised _ _ _ _ _ ho] at h
      exact runAttempt_events_spawnWith _ _ _ _ _ h
  | succ n ih =>
    intro a ev h
    cases ho : (runAttempt job osEnv beh a).1 with
    | ok =>
      rw [execFrom_eq_ok _ _ _ _ _ ho] at h
      exact runAttempt_events_spawnWith _ _ _ _ _ h
    | failed =>
      rw [execFrom_eq_failed_succ _ _ _ _ _ ho] at h
      simp only [List.mem_append, List.mem_cons] at h
      rcases h with h | h | h
      · exact runAttempt_events_spawnWith _ _ _ _ _ h
      · simp [h, evIsSpawnWith]
      · exact ih (a + 1) ev h
    | timedOut =>
      rw [execFrom_eq_timedOut _ _ _ _ _ ho] at h
      exact runAttempt_events_spawnWith _ _ _ _ _ h
    | excRaised =>
      rw [execFrom_eq_excRaised _ _ _ _ _ ho] at h
      exact runAttempt_events_spawnWith _ _ _ _ _ h

theorem execFrom_succeeds_at (job : PipelineJob) (osEnv : List (String × String))
    (beh : Nat → Nat → CmdOutcome) :
    ∀ (j rem a : Nat), j ≤ rem →
    (∀ m, m < j → (runAttempt job osEnv beh (a + m)).1 = AttemptOutcome.failed) →
    (runAttempt job osEnv beh (a + j)).1 = AttemptOutcome.ok →
    (execFrom job osEnv beh a rem).ok = true ∧
      (execFrom job osEnv beh a rem).attempts = j + 1 ∧
      ∀ ev ∈ (execFrom job osEnv beh a rem).events, evAttemptLe (a + j) ev := by
  intro j
  induction j with
  | zero =>
    intro rem a _ _ hok
    rw [execFrom_eq_ok _ _ _ _ _ (by simpa using hok)]
    refine ⟨rfl, rfl, ?_⟩
    intro ev hev
    exact runAttempt_events_attemptLe _ _ _ _ _ hev _ (Nat.le_add_right a 0)
  | succ n ih =>
    intro rem a hle hpre hok
    cases rem with
    | zero => omega
    | succ rem' =>
      have hfail : (runAttempt job osEnv beh a).1 = AttemptOutcome.failed := by
        simpa using hpre 0 (Nat.succ_pos n)
      rw [execFrom_eq_failed_succ _ _ _ _ _ hfail]
      have hpre' : ∀ m, m < n → (runAttempt job osEnv beh ((a + 1) + m)).1 = AttemptOutcome.failed := by
        intro m hm
        have := hpre (m + 1) (by omega)
        have harith : a + (m + 1) = (a + 1) + m := by omega
        rwa [harith] at this
      have hok' : (runAttempt job osEnv beh ((a + 1) + n)).1 = AttemptOutcome.ok := by
        have harith : a + (n + 1) = (a + 1) + n := by omega
        rwa [harith] at hok
      obtain ⟨h1, h2, h3⟩ := ih rem' (a + 1) (by omega) hpre' hok'
      refine ⟨h1, by simp [h2], ?_⟩
      intro ev hev
      simp only [List.mem_append, List.mem_cons] at hev
      rcases hev with hev | hev | hev
      · exact runAttempt_events_attemptLe _ _ _ _ _ hev _ (Nat.le_add_right a (n + 1))
      · simp [hev, evAttemptLe]
      · have := h3 ev hev
        have harith : (a + 1) + n = a + (n + 1) := by omega
        rwa [harith] at this

theorem runCmds_fail_prefix (env : List (String × String)) (beh : Nat → CmdOutcome)
    (a : Nat) (k : Int) (hk : k ≠ 0) :
    ∀ (j : Nat) (cs : List String) (i : Nat), j < cs.length →
    (∀ m, m < j → beh (i + m) = CmdOutcome.exitCode 0) →
    beh (i + j) = CmdOutcome.exitCode k →
    runCmds env beh a i cs = (AttemptOutcome.failed, evRunList a env i (cs.take (j + 1))) := by
  intro j
  induction j with
  | zero =>
    intro cs i hlen _ hj
    cases cs with
    | nil => simp at hlen
    | cons c rest =>
      have hj' : beh i = CmdOutcome.exitCode k := by simpa using hj
      simp [runCmds, hj', hk, evRunList]
  | succ n ih =>
    intro cs i hlen hpre hj
    cases cs with
    | nil => simp at hlen
    | cons c rest =>
      have h0 : beh i = CmdOutcome.exitCode 0 := by simpa using hpre 0 (Nat.succ_pos n)
      have hpre' : ∀ m, m < n → beh ((i + 1) + m) = CmdOutcome.exitCode 0 := by
        intro m hm
        have := hpre (m + 1) (by omega)
        have harith : i + (m + 1) = (i + 1) + m := by omega
        rwa [harith] at this
      have hj' : beh ((i + 1) + n) = CmdOutcome.exitCode k := by
        have harith : i + (n + 1) = (i + 1) + n := by omega
        rwa [harith] at hj
      have hrec := ih rest (i + 1) (by simpa using Nat.lt_of_succ_lt_succ hlen) hpre' hj'
      simp [runCmds, h0, hrec, evRunList]

theorem runCmds_all_zero (env : List (String × String)) (beh : Nat → CmdOutcome) (a : Nat) :
    ∀ (cs : List String) (i : Nat), (∀ m, beh (i + m) = CmdOutcome.exitCode 0) →
    runCmds env beh a i cs = (AttemptOutcome.ok, evRunList a env i cs) := by
  intro cs
  induction cs with
  | nil => intro i _; simp [runCmds, evRunList]
  | cons c rest ih =>
    intro i hall
    have h0 : beh i = CmdOutcome.exitCode 0 := by simpa using hall 0
    have hall' : ∀ m, beh ((i + 1) + m) = CmdOutcome.exitCode 0 := by
      intro m
      have := hall (m + 1)
      have harith : i + (m + 1) = (i + 1) + m := by omega
      rwa [harith] at this
    simp [runCmds, h0, ih (i + 1) hall', evRunList]

theorem execute_job_ok (st : OrchState) (job : PipelineJob) (beh : Nat → Nat → CmdOutcome) :
    (execute_job st job beh).1.ok = jobOk st.os_environ job beh := rfl

theorem execute_job_state (st : OrchState) (job : PipelineJob) (beh : Nat → Nat → CmdOutcome) :
    (execute_job st job beh).2 =
      ⟨st.os_environ, dictInsert job.name (jobOk st.os_environ job beh) st.job_results⟩ := rfl

theorem runJobsLoop_char (beh : Nat → Nat → Nat → CmdOutcome) (osEnv : List (String × String)) :
    ∀ (jobs : List PipelineJob) (i succ : Nat) (res : List (String × Bool)),
    runJobsLoop beh jobs i succ ⟨osEnv, res⟩ =
      (succ + okPrefixLen osEnv beh jobs i, ⟨osEnv, loopResults osEnv beh jobs i res⟩) := by
  intro jobs
  induction jobs with
  | nil => intro i succ res; simp [runJobsLoop, okPrefixLen, loopResults]
  | cons job rest ih =>
    intro i succ res
    by_cases h : jobOk osEnv job (beh i) = true
    · have h1 : (execute_job ⟨osEnv, res⟩ job (beh i)).1.ok = true := h
      have h2 : (execute_job ⟨osEnv, res⟩ job (beh i)).2 =
          ⟨osEnv, dictInsert job.name true res⟩ := by
        rw [execute_job_state]
        simp [h]
      simp only [runJobsLoop, h1, h2, if_true]
      rw [ih]
      simp only [okPrefixLen, loopResults, h, if_true]
      refine congrArg₂ Prod.mk ?_ rfl
      omega
    · have hf : jobOk osEnv job (beh i) = false := by
        revert h
        cases jobOk osEnv job (beh i) <;> simp
      have h1 : (execute_job ⟨osEnv, res⟩ job (beh i)).1.ok = false := hf
      simp only [runJobsLoop, h1, Bool.false_eq_true, if_false]
      rw [execute_job_state]
      simp [okPrefixLen, loopResults, hf]

theorem okPrefixLen_le (osEnv : List (String × String)) (beh : Nat → Nat → Nat → CmdOutcome) :
    ∀ (jobs : List PipelineJob) (i : Nat), okPrefixLen osEnv beh jobs i ≤ jobs.length := by
  intro jobs
  induction jobs with
  | nil => intro i; simp [okPrefixLen]
  | cons job rest ih =>
    intro i
    by_cases h : jobOk osEnv job (beh i) = true
    · simp only [okPrefixLen, h, if_true, List.length_cons]
      exact Nat.succ_le_succ (ih (i + 1))
    · simp only [okPrefixLen, h, if_false]
      exact Nat.zero_le _

theorem loopResults_length (osEnv : List (String × String)) (beh : Nat → Nat → Nat → CmdOutcome) :
    ∀ (jobs : List PipelineJob) (i : Nat) (res : List (String × Bool)),
    (jobs.map PipelineJob.name).Nodup →
    (∀ j ∈ jobs, dictLookup j.name res = none) →
    (loopResults osEnv beh jobs i res).length =
      res.length + (if okPrefixLen osEnv beh jobs i = jobs.length then
        okPrefixLen osEnv beh jobs i else okPrefixLen osEnv beh jobs i + 1) := by
  intro jobs
  induction jobs with
  | nil => intro i res _ _; simp [loopResults, okPrefixLen]
  | cons job rest ih =>
    intro i res hnd hfresh
    rw [List.map_cons, List.nodup_cons] at hnd
    by_cases h : jobOk osEnv job (beh i) = true
    · simp only [loopResults, okPrefixLen, h, if_true]
      have hfresh' : ∀ j ∈ rest, dictLookup j.name (dictInsert job.name true res) = none := by
        intro j hj
        have hne : j.name ≠ job.name := by
          intro he
          exact hnd.1 (he ▸ List.mem_map_of_mem _ hj)
        rw [dictLookup_dictInsert_ne _ _ _ _ hne]
        exact hfresh j (List.mem_cons_of_mem _ hj)
      rw [ih (i + 1) _ hnd.2 hfresh']
      rw [dictInsert_length_fresh _ _ _ (hfresh job (List.mem_cons_self _ _))]
      simp only [List.length_cons]
      split_ifs <;> omega
    · have hf : jobOk osEnv job (beh i) = false := by
        revert h
        cases jobOk osEnv job (beh i) <;> simp
      have h0 : okPrefixLen osEnv beh (job :: rest) i = 0 := by simp [okPrefixLen, hf]
      have hl : loopResults osEnv beh (job :: rest) i res = dictInsert job.name false res := by
        simp [loopResults, hf]
      rw [h0, hl, dictInsert_length_fresh _ _ _ (hfresh job (List.mem_cons_self _ _))]
      rw [if_neg (show ¬(0 = (job :: rest).length) by simp)]

theorem loopResults_all_true (osEnv : List (String × String)) (beh : Nat → Nat → Nat → CmdOutcome) :
    ∀ (jobs : List PipelineJob) (i : Nat) (res : List (String × Bool)),
    okPrefixLen osEnv beh jobs i = jobs.length →
    (∀ p ∈ res, p.2 = true) →
    ∀ p ∈ loopResults osEnv beh jobs i res, p.2 = true := by
  intro jobs
  induction jobs with
  | nil => intro i res _ hres; simpa [loopResults] using hres
  | cons job rest ih =>
    intro i res hall hres
    by_cases h : jobOk osEnv job (beh i) = true
    · simp only [loopResults, h, if_true]
      have hall' : okPrefixLen osEnv beh rest (i + 1) = rest.length := by
        simp only [okPrefixLen, h, if_true, List.length_cons] at hall
        omega
      refine ih (i + 1) _ hall' ?_
      intro p hp
      rcases mem_dictInsert p _ _ _ hp with h' | h'
      · simp [h']
      · exact hres p h'
    · exfalso
      have hf : jobOk osEnv job (beh i) = false := by
        revert h
        cases jobOk osEnv job (beh i) <;> simp
      have h0 : okPrefixLen osEnv beh (job :: rest) i = 0 := by simp [okPrefixLen, hf]
      rw [h0, List.length_cons] at hall
      omega

theorem loopResults_exists_false (osEnv : List (String × String))
    (beh : Nat → Nat → Nat → CmdOutcome) :
    ∀ (jobs : List PipelineJob) (i : Nat) (res : List (String × Bool)),
    okPrefixLen osEnv beh jobs i < jobs.length →
    ∃ p ∈ loopResults osEnv beh jobs i res, p.2 = false := by
  intro jobs
  induction jobs with
  | nil => intro i res h; simp [okPrefixLen] at h
  | cons job rest ih =>
    intro i res hlt
    by_cases h : jobOk osEnv job (beh i) = true
    · simp only [loopResults, h, if_true]
      have hlt' : okPrefixLen osEnv beh rest (i + 1) < rest.length := by
        simp only [okPrefixLen, h, if_true, List.length_cons] at hlt
        omega
      exact ih (i + 1) _ hlt'
    · have hf : jobOk osEnv job (beh i) = false := by
        revert h
        cases jobOk osEnv job (beh i) <;> simp
      have hl : loopResults osEnv beh (job :: rest) i res = dictInsert job.name false res := by
        simp [loopResults, hf]
      rw [hl]
      exact ⟨(job.name, false), mem_dictInsert_self _ _ _, rfl⟩

theorem buildJobs_names_sublist (config : PipelineConfig) (stages : List PipelineStage) :
    ((buildJobs config stages).map PipelineJob.name).Sublist
      ["Environment Validation", "Build Application",
       "Deploy to " ++ config.environment.titleValue] := by
  unfold buildJobs
  rw [List.map_append, List.map_append]
  have s1 : ((if PipelineStage.validate ∈ stages then [validationJob] else []).map
      PipelineJob.name).Sublist ["Environment Validation"] := by
    by_cases h : PipelineStage.validate ∈ stages
    · rw [if_pos h]
      exact List.Sublist.refl _
    · rw [if_neg h]
      exact List.nil_sublist _
  have s2 : ((if PipelineStage.build ∈ stages then [buildApplicationJob] else []).map
      PipelineJob.name).Sublist ["Build Application"] := by
    by_cases h : PipelineStage.build ∈ stages
    · rw [if_pos h]
      exact List.Sublist.refl _
    · rw [if_neg h]
      exact List.nil_sublist _
  have s3 : ((if PipelineStage.deploy ∈ stages ∧ config.auto_deploy = true then
      [deployJob config.environment] else []).map PipelineJob.name).Sublist
      ["Deploy to " ++ config.environment.titleValue] := by
    by_cases h : PipelineStage.deploy ∈ stages ∧ config.auto_deploy = true
    · rw [if_pos h]
      exact List.Sublist.refl _
    · rw [if_neg h]
      exact List.nil_sublist _
  exact List.Sublist.append (List.Sublist.append s1 s2) s3

theorem titleList_nodup (e : PipelineEnvironment) :
    (["Environment Validation", "Build Application",
      "Deploy to " ++ PipelineEnvironment.titleValue e]).Nodup := by
  cases e <;> decide

theorem buildJobs_names_nodup (config : PipelineConfig) (stages : List PipelineStage) :
    ((buildJobs config stages).map PipelineJob.name).Nodup :=
  List.Nodup.sublist (buildJobs_names_sublist config stages)
    (titleList_nodup config.environment)

theorem okPrefixLen_eq_of_first_fail (osEnv : List (String × String))
    (beh : Nat → Nat → Nat → CmdOutcome) :
    ∀ (jobs : List PipelineJob) (i idx : Nat), idx < jobs.length →
    (∀ k, k < idx → jobOk osEnv (jobs.getD k validationJob) (beh (i + k)) = true) →
    jobOk osEnv (jobs.getD idx validationJob) (beh (i + idx)) = false →
    okPrefixLen osEnv beh jobs i = idx := by
  intro jobs
  induction jobs with
  | nil => intro i idx h; simp at h
  | cons job rest ih =>
    intro i idx hlt hpre hidx
    cases idx with
    | zero =>
      have hf : jobOk osEnv job (beh i) = false := by simpa using hidx
      simp [okPrefixLen, hf]
    | succ n =>
      have h0 : jobOk osEnv job (beh i) = true := by
        simpa using hpre 0 (Nat.succ_pos n)
      have hpre' : ∀ k, k < n →
          jobOk osEnv (rest.getD k validationJob) (beh ((i + 1) + k)) = true := by
        intro k hk
        have := hpre (k + 1) (by omega)
        have harith : i + (k + 1) = (i + 1) + k := by omega
        rw [harith] at this
        simpa using this
      have hidx' : jobOk osEnv (rest.getD n validationJob) (beh ((i + 1) + n)) = false := by
        have harith : i + (n + 1) = (i + 1) + n := by omega
        rw [harith] at hidx
        simpa using hidx
      have hrec := ih (i + 1) n (by simpa using Nat.lt_of_succ_lt_succ hlt) hpre' hidx'
      simp [okPrefixLen, h0, hrec]

theorem mainExitOf_zero_iff (r : Except PyErr Bool) :
    mainExitOf r = 0 ↔ r = Except.ok true ∨ r = Except.error PyErr.keyboardInterrupt := by
  rcases r with e | s
  · cases e <;> simp [mainExitOf, exitFromTry, Bind.bind, Except.bind]
  · cases s <;> simp [mainExitOf, exitFromTry, Bind.bind, Except.bind, pure, Except.pure]

theorem mainExitOf_one_iff (r : Except PyErr Bool) :
    mainExitOf r = 1 ↔ r = Except.ok false ∨ r = Except.error PyErr.exception := by
  rcases r with e | s
  · cases e <;> simp [mainExitOf, exitFromTry, Bind.bind, Except.bind]
  · cases s <;> simp [mainExitOf, exitFromTry, Bind.bind, Except.bind, pure, Except.pure]

theorem mainExitOf_zero_or_one (r : Except PyErr Bool) :
    mainExitOf r = 0 ∨ mainExitOf r = 1 := by
  rcases r with e | s
  · cases e <;> simp [mainExitOf, exitFromTry, Bind.bind, Except.bind]
  · cases s <;> simp [mainExitOf, exitFromTry, Bind.bind, Except.bind, pure, Except.pure]

/-- C1: for a job with retry_count r whose commands always fail with a
non-zero exit status, execute_job performs exactly r + 1 attempts of the
command sequence and reports the job failed; and when the attempts
before attempt index j all fail and attempt j succeeds with
j at most r, execute_job performs exactly j + 1 attempts, returns true,
and no subprocess run belongs to an attempt after j. -/
theorem C1_retry_attempt_count (st : OrchState) (job : PipelineJob)
    (beh : Nat → Nat → CmdOutcome) :
    (job.commands ≠ [] → (∀ a i, ∃ k, beh a i = CmdOutcome.exitCode k ∧ k ≠ 0) →
      (execute_job st job beh).1.attempts = job.retry_count + 1 ∧
      (execute_job st job beh).1.ok = false ∧
      dictLookup job.name (execute_job st job beh).2.job_results = some false) ∧
    (∀ j, j ≤ job.retry_count →
      (∀ m, m < j → (runAttempt job st.os_environ beh m).1 = AttemptOutcome.failed) →
      (runAttempt job st.os_environ beh j).1 = AttemptOutcome.ok →
      (execute_job st job beh).1.attempts = j + 1 ∧
      (execute_job st job beh).1.ok = true ∧
      ∀ ev ∈ (execute_job st job beh).1.events, evAttemptLe j ev) := by
  constructor
  · intro hne hf
    have hfa : ∀ a', (runAttempt job st.os_environ beh a').1 = AttemptOutcome.failed :=
      fun a' => runAttempt_failed_of_alwaysFail _ _ _ _ hne (hf a')
    obtain ⟨h1, h2, h3⟩ := execFrom_all_fail _ _ _ hfa job.retry_count 0
    refine ⟨h2, h1, ?_⟩
    show dictLookup job.name
      (dictInsert job.name (execFrom job st.os_environ beh 0 job.retry_count).ok
        st.job_results) = some false
    rw [h1]
    exact dictLookup_dictInsert_self _ _ _
  · intro j hj hpre hok
    have hpre' : ∀ m, m < j →
        (runAttempt job st.os_environ beh (0 + m)).1 = AttemptOutcome.failed := by
      intro m hm
      simpa using hpre m hm
    have hok' : (runAttempt job st.os_environ beh (0 + j)).1 = AttemptOutcome.ok := by
      simpa using hok
    obtain ⟨h1, h2, h3⟩ := execFrom_succeeds_at _ _ _ j job.retry_count 0 hj hpre' hok'
    refine ⟨h2, h1, ?_⟩
    intro ev hev
    have := h3 ev hev
    simpa using this

/-- Witness for C1 at a concrete job: retry_count 2 and an always
failing command give exactly 3 attempts and a false verdict. -/
theorem C1_retry_attempt_count_witness :
    (execute_job ⟨[], []⟩ ⟨"w", PipelineStage.build, ["c"], [], none, 15, 2⟩
        (fun _ _ => CmdOutcome.exitCode 1)).1.attempts = 3 ∧
    (execute_job ⟨[], []⟩ ⟨"w", PipelineStage.build, ["c"], [], none, 15, 2⟩
        (fun _ _ => CmdOutcome.exitCode 1)).1.ok = false := by
  have h := (C1_retry_attempt_count ⟨[], []⟩ ⟨"w", PipelineStage.build, ["c"], [], none, 15, 2⟩
      (fun _ _ => CmdOutcome.exitCode 1)).1 (by simp)
      (fun a i => ⟨1, rfl, by decide⟩)
  exact ⟨h.1, h.2.1⟩

/-- C3 counterexample: a job with one command, a timeout of the first
attempt and retry_count 1 performs exactly one attempt, although the
same job under a non-zero-exit failure performs two attempts; so a
timed-out command is not retried the way a non-zero-exit failure is,
refuting the retry part of the claim. -/
theorem C3_timeout_retry_counterexample :
    (execute_job ⟨[], []⟩ ⟨"t", PipelineStage.build, ["sleep 5"], [], none, 1, 1⟩
        (fun _ _ => CmdOutcome.timeout)).1.finalOutcome = AttemptOutcome.timedOut ∧
    (execute_job ⟨[], []⟩ ⟨"t", PipelineStage.build, ["sleep 5"], [], none, 1, 1⟩
        (fun _ _ => CmdOutcome.timeout)).1.attempts = 1 ∧
    (execute_job ⟨[], []⟩ ⟨"t", PipelineStage.build, ["sleep 5"], [], none, 1, 1⟩
        (fun _ _ => CmdOutcome.exitCode 1)).1.attempts = 2 ∧
    ¬ (execute_job ⟨[], []⟩ ⟨"t", PipelineStage.build, ["sleep 5"], [], none, 1, 1⟩
        (fun _ _ => CmdOutcome.timeout)).1.attempts = 2 := by
  decide

/-- C3 amended: a command attempt that exceeds the timeout is reported
as the distinct timed-out kind, not the failed kind, and the job counts
as failed with a false entry recorded; but the job aborts immediately
after the timed-out attempt and is never retried, regardless of the
remaining retry budget. -/
theorem C3_timeout_aborts_job (st : OrchState) (job : PipelineJob)
    (beh : Nat → Nat → CmdOutcome)
    (h : (runAttempt job st.os_environ beh 0).1 = AttemptOutcome.timedOut) :
    (execute_job st job beh).1.finalOutcome = AttemptOutcome.timedOut ∧
    AttemptOutcome.timedOut ≠ AttemptOutcome.failed ∧
    (execute_job st job beh).1.attempts = 1 ∧
    (execute_job st job beh).1.ok = false ∧
    dictLookup job.name (execute_job st job beh).2.job_results = some false ∧
    (∀ a rem, (runAttempt job st.os_environ beh a).1 = AttemptOutcome.timedOut →
      (execFrom job st.os_environ beh a rem).attempts = 1) := by
  have he : execFrom job st.os_environ beh 0 job.retry_count =
      ⟨false, 1, AttemptOutcome.timedOut, (runAttempt job st.os_environ beh 0).2⟩ :=
    execFrom_eq_timedOut _ _ _ _ _ h
  refine ⟨?_, by decide, ?_, ?_, ?_, ?_⟩
  · show (execFrom job st.os_environ beh 0 job.retry_count).finalOutcome = _
    rw [he]
  · show (execFrom job st.os_environ beh 0 job.retry_count).attempts = 1
    rw [he]
  · show (execFrom job st.os_environ beh 0 job.retry_count).ok = false
    rw [he]
  · show dictLookup job.name
      (dictInsert job.name (execFrom job st.os_environ beh 0 job.retry_count).ok
        st.job_results) = some false
    rw [he]
    exact dictLookup_dictInsert_self _ _ _
  · intro a rem h'
    rw [execFrom_eq_timedOut _ _ _ _ _ h']

/-- Witness for C3 amended at a concrete job whose single command times
out on the first attempt with retry budget 1. -/
theorem C3_timeout_aborts_job_witness :
    (execute_job ⟨[], []⟩ ⟨"t2", PipelineStage.build, ["x"], [], none, 1, 1⟩
        (fun _ _ => CmdOutcome.timeout)).1.finalOutcome = AttemptOutcome.timedOut ∧
    (execute_job ⟨[], []⟩ ⟨"t2", PipelineStage.build, ["x"], [], none, 1, 1⟩
        (fun _ _ => CmdOutcome.timeout)).1.attempts = 1 := by
  have h := C3_timeout_aborts_job ⟨[], []⟩ ⟨"t2", PipelineStage.build, ["x"], [], none, 1, 1⟩
      (fun _ _ => CmdOutcome.timeout) (by decide)
  exact ⟨h.1, h.2.2.1⟩

/-- C4: the success rate of the status report is the number of
successful jobs divided by the total number of recorded jobs when that
total is positive, and 0 when the total is 0; the total field is the
number of recorded jobs. -/
theorem C4_success_rate (results : List (String × Bool)) :
    (0 < results.length →
      (generate_pipeline_status_report results).success_rate =
        ((results.filter (fun p => p.2)).length : ℚ) / (results.length : ℚ)) ∧
    (results.length = 0 → (generate_pipeline_status_report results).success_rate = 0) ∧
    (generate_pipeline_status_report results).total_jobs = results.length := by
  refine ⟨?_, ?_, rfl⟩
  · intro h
    show ((results.filter (fun p => p.2)).length : ℚ) /
        ((max results.length 1 : Nat) : ℚ) = _
    rw [Nat.max_eq_left h]
  · intro h
    have hnil : results = [] := List.length_eq_zero.mp h
    subst hnil
    show ((List.filter (fun p => p.2) ([] : List (String × Bool))).length : ℚ) /
        ((max (0 : Nat) 1 : Nat) : ℚ) = 0
    norm_num

/-- Witness for C4 at two recorded jobs, one successful, and at zero
recorded jobs. -/
theorem C4_success_rate_witness :
    (generate_pipeline_status_report [("a", true), ("b", false)]).success_rate = (1 : ℚ) / 2 ∧
    (generate_pipeline_status_report ([] : List (String × Bool))).success_rate = 0 := by
  constructor
  · have h := (C4_success_rate [("a", true), ("b", false)]).1 (by decide)
    rw [h]
    norm_num [List.filter]
  · exact (C4_success_rate ([] : List (String × Bool))).2.1 rfl

/-- C7: execute_job leaves the parent process environment unchanged,
and every subprocess spawned during the job receives exactly the job
environment merged over the ambient environment. -/
theorem C7_env_frame (st : OrchState) (job : PipelineJob) (beh : Nat → Nat → CmdOutcome) :
    (execute_job st job beh).2.os_environ = st.os_environ ∧
    ∀ ev ∈ (execute_job st job beh).1.events,
      evIsSpawnWith (mergeEnv st.os_environ job.environment) ev := by
  refine ⟨rfl, ?_⟩
  intro ev hev
  exact execFrom_events_spawnWith _ _ _ _ _ _ hev

/-- Witness for C7 at a concrete ambient environment and job override:
the parent environment is returned unchanged and the single spawn event
carries the merged environment. -/
theorem C7_env_frame_witness :
    (execute_job ⟨[("A", "1")], []⟩
        ⟨"j", PipelineStage.build, ["c"], [("B", "2")], none, 15, 0⟩
        (fun _ _ => CmdOutcome.exitCode 0)).2.os_environ = [("A", "1")] ∧
    evIsSpawnWith (mergeEnv [("A", "1")] [("B", "2")])
      (Ev.run 0 0 "c" (mergeEnv [("A", "1")] [("B", "2")])) := by
  have h := C7_env_frame ⟨[("A", "1")], []⟩
      ⟨"j", PipelineStage.build, ["c"], [("B", "2")], none, 15, 0⟩
      (fun _ _ => CmdOutcome.exitCode 0)
  exact ⟨h.1, h.2 _ (by decide)⟩

/-- C9: after execute_job on a job, the job_results dictionary maps the
job name to exactly the returned boolean, and every other name keeps
its previous binding; in particular a failed job is itself recorded. -/
theorem C9_job_results_update (st : OrchState) (job : PipelineJob)
    (beh : Nat → Nat → CmdOutcome) :
    dictLookup job.name (execute_job st job beh).2.job_results =
      some ((execute_job st job beh).1.ok) ∧
    ∀ n, n ≠ job.name →
      dictLookup n (execute_job st job beh).2.job_results = dictLookup n st.job_results := by
  refine ⟨?_, ?_⟩
  · exact dictLookup_dictInsert_self _ _ _
  · intro n hn
    exact dictLookup_dictInsert_ne _ _ _ _ hn

/-- Witness for C9: a failing job is recorded as false while an
unrelated existing entry is untouched. -/
theorem C9_job_results_update_witness :
    dictLookup "Other" (execute_job ⟨[], [("Other", true)]⟩
        ⟨"w9", PipelineStage.build, ["c"], [], none, 15, 0⟩
        (fun _ _ => CmdOutcome.exitCode 1)).2.job_results = some true ∧
    dictLookup "w9" (execute_job ⟨[], [("Other", true)]⟩
        ⟨"w9", PipelineStage.build, ["c"], [], none, 15, 0⟩
        (fun _ _ => CmdOutcome.exitCode 1)).2.job_results = some false := by
  have h := C9_job_results_update ⟨[], [("Other", true)]⟩
      ⟨"w9", PipelineStage.build, ["c"], [], none, 15, 0⟩
      (fun _ _ => CmdOutcome.exitCode 1)
  constructor
  · rw [h.2 "Other" (by decide)]
    decide
  · rw [h.1]
    decide

/-- C2 counterexample: with validate and build requested and every
command failing, the first failed job has index 0 in the planned job
list (successCount is 0), the pipeline halts before the build job, yet
the recorded job_results collection has length 1, not 0: the failed job
itself is recorded, so the collection length is not the index of the
first failed job. -/
theorem C2_results_length_counterexample :
    (run_pipeline {} [PipelineStage.validate, PipelineStage.build]
        (fun _ _ _ => CmdOutcome.exitCode 1) ⟨[], []⟩).overall = false ∧
    (run_pipeline {} [PipelineStage.validate, PipelineStage.build]
        (fun _ _ _ => CmdOutcome.exitCode 1) ⟨[], []⟩).successCount = 0 ∧
    (run_pipeline {} [PipelineStage.validate, PipelineStage.build]
        (fun _ _ _ => CmdOutcome.exitCode 1) ⟨[], []⟩).state.job_results.length = 1 ∧
    ¬ (run_pipeline {} [PipelineStage.validate, PipelineStage.build]
        (fun _ _ _ => CmdOutcome.exitCode 1) ⟨[], []⟩).state.job_results.length = 0 ∧
    dictLookup "Build Application"
      (run_pipeline {} [PipelineStage.validate, PipelineStage.build]
        (fun _ _ _ => CmdOutcome.exitCode 1) ⟨[], []⟩).state.job_results = none := by
  decide

/-- C2 amended: when the jobs before index idx all succeed and the job
at index idx fails permanently, run_pipeline reports failure, executes
no further job (successCount is idx), and the recorded job_results
collection has length idx + 1: the index of the first failed job plus
one, because the failed job itself is recorded. -/
theorem C2_first_failure_halts (config : PipelineConfig) (stages : List PipelineStage)
    (beh : Nat → Nat → Nat → CmdOutcome) (osEnv : List (String × String)) (idx : Nat)
    (hlt : idx < (buildJobs config stages).length)
    (hpre : ∀ k, k < idx →
      jobOk osEnv ((buildJobs config stages).getD k validationJob) (beh k) = true)
    (hidx : jobOk osEnv ((buildJobs config stages).getD idx validationJob) (beh idx) = false) :
    (run_pipeline config stages beh ⟨osEnv, []⟩).overall = false ∧
    (run_pipeline config stages beh ⟨osEnv, []⟩).successCount = idx ∧
    (run_pipeline config stages beh ⟨osEnv, []⟩).state.job_results.length = idx + 1 := by
  have hok : okPrefixLen osEnv beh (buildJobs config stages) 0 = idx := by
    refine okPrefixLen_eq_of_first_fail osEnv beh (buildJobs config stages) 0 idx hlt ?_ ?_
    · intro k hk
      simpa using hpre k hk
    · simpa using hidx
  have hchar := runJobsLoop_char beh osEnv (buildJobs config stages) 0 0 []
  have hsc : (runJobsLoop beh (buildJobs config stages) 0 0 ⟨osEnv, []⟩).1 = idx := by
    rw [hchar]
    simpa using hok
  refine ⟨?_, hsc, ?_⟩
  · show decide ((runJobsLoop beh (buildJobs config stages) 0 0 ⟨osEnv, []⟩).1 =
      (buildJobs config stages).length) = false
    rw [hsc]
    simp [Nat.ne_of_lt hlt]
  · show (runJobsLoop beh (buildJobs config stages) 0 0 ⟨osEnv, []⟩).2.job_results.length =
      idx + 1
    rw [hchar]
    have hlen := loopResults_length osEnv beh (buildJobs config stages) 0 []
        (buildJobs_names_nodup config stages) (fun j _ => rfl)
    show (loopResults osEnv beh (buildJobs config stages) 0 []).length = idx + 1
    rw [hlen, hok, if_neg (Nat.ne_of_lt hlt)]
    simp

/-- Witness for C2 amended: a one-job pipeline whose job fails at index
0 halts with one recorded result. -/
theorem C2_first_failure_halts_witness :
    (run_pipeline {} [PipelineStage.validate]
        (fun _ _ _ => CmdOutcome.exitCode 1) ⟨[], []⟩).overall = false ∧
    (run_pipeline {} [PipelineStage.validate]
        (fun _ _ _ => CmdOutcome.exitCode 1) ⟨[], []⟩).successCount = 0 ∧
    (run_pipeline {} [PipelineStage.validate]
        (fun _ _ _ => CmdOutcome.exitCode 1) ⟨[], []⟩).state.job_results.length = 0 + 1 :=
  C2_first_failure_halts {} [PipelineStage.validate] (fun _ _ _ => CmdOutcome.exitCode 1)
    [] 0 (by decide) (fun k hk => absurd hk (by omega)) (by decide)

/-- C5: the boolean verdict of run_pipeline is true exactly when the
number of recorded job results equals the number of planned jobs and
every recorded result is a success. -/
theorem C5_overall_success_iff (config : PipelineConfig) (stages : List PipelineStage)
    (beh : Nat → Nat → Nat → CmdOutcome) (osEnv : List (String × String)) :
    (run_pipeline config stages beh ⟨osEnv, []⟩).overall = true ↔
      ((run_pipeline config stages beh ⟨osEnv, []⟩).state.job_results.length =
        (run_pipeline config stages beh ⟨osEnv, []⟩).totalJobs ∧
       ∀ p ∈ (run_pipeline config stages beh ⟨osEnv, []⟩).state.job_results, p.2 = true) := by
  have hchar := runJobsLoop_char beh osEnv (buildJobs config stages) 0 0 []
  have hle := okPrefixLen_le osEnv beh (buildJobs config stages) 0
  have hlen := loopResults_length osEnv beh (buildJobs config stages) 0 []
      (buildJobs_names_nodup config stages) (fun j _ => rfl)
  constructor
  · intro hov
    have hdec : (runJobsLoop beh (buildJobs config stages) 0 0 ⟨osEnv, []⟩).1 =
        (buildJobs config stages).length := of_decide_eq_true hov
    rw [hchar] at hdec
    have hok : okPrefixLen osEnv beh (buildJobs config stages) 0 =
        (buildJobs config stages).length := by simpa using hdec
    constructor
    · show (runJobsLoop beh (buildJobs config stages) 0 0 ⟨osEnv, []⟩).2.job_results.length =
        (buildJobs config stages).length
      rw [hchar]
      show (loopResults osEnv beh (buildJobs config stages) 0 []).length = _
      rw [hlen, hok, if_pos rfl]
      simp
    · intro p hp
      have hp' : p ∈ (runJobsLoop beh (buildJobs config stages) 0 0
          ⟨osEnv, []⟩).2.job_results := hp
      rw [hchar] at hp'
      exact loopResults_all_true osEnv beh (buildJobs config stages) 0 [] hok
        (by simp) p hp'
  · rintro ⟨hlen', hall⟩
    have hok : okPrefixLen osEnv beh (buildJobs config stages) 0 =
        (buildJobs config stages).length := by
      by_contra hne
      have hlt : okPrefixLen osEnv beh (buildJobs config stages) 0 <
          (buildJobs config stages).length := lt_of_le_of_ne hle hne
      obtain ⟨p, hp, hpf⟩ := loopResults_exists_false osEnv beh (buildJobs config stages) 0 [] hlt
      have hpt := hall p (by
        show p ∈ (runJobsLoop beh (buildJobs config stages) 0 0 ⟨osEnv, []⟩).2.job_results
        rw [hchar]
        exact hp)
      rw [hpt] at hpf
      exact Bool.noConfusion hpf
    show decide ((runJobsLoop beh (buildJobs config stages) 0 0 ⟨osEnv, []⟩).1 =
      (buildJobs config stages).length) = true
    apply decide_eq_true
    rw [hchar]
    simpa using hok

/-- Witness for C5: a one-job all-success pipeline has a true verdict,
obtained through the characterization. -/
theorem C5_overall_success_iff_witness :
    (run_pipeline {} [PipelineStage.validate]
        (fun _ _ _ => CmdOutcome.exitCode 0) ⟨[], []⟩).overall = true :=
  (C5_overall_success_iff {} [PipelineStage.validate]
    (fun _ _ _ => CmdOutcome.exitCode 0) []).mpr ⟨by decide, by decide⟩

/-- C6: within one attempt, a command with a non-zero exit after a
prefix of successful commands short-circuits the attempt: exactly the
commands up to and including the failing one are spawned and the
attempt is marked failed; with retry budget remaining, a fixed sleep of
2 seconds follows and the next attempt re-runs the commands from index
0, re-executing the full command sequence when its commands all
succeed. -/
theorem C6_short_circuit_backoff (st : OrchState) (job : PipelineJob)
    (beh : Nat → Nat → CmdOutcome) (a j rem : Nat) (k : Int) (hk : k ≠ 0)
    (hj : j < job.commands.length)
    (hpre : ∀ m, m < j → beh a m = CmdOutcome.exitCode 0)
    (hfail : beh a j = CmdOutcome.exitCode k) :
    (runAttempt job st.os_environ beh a).1 = AttemptOutcome.failed ∧
    (runAttempt job st.os_environ beh a).2 =
      evRunList a (mergeEnv st.os_environ job.environment) 0 (job.commands.take (j + 1)) ∧
    (execFrom job st.os_environ beh a (rem + 1)).events =
      (runAttempt job st.os_environ beh a).2 ++
        Ev.sleep 2 :: (execFrom job st.os_environ beh (a + 1) rem).events ∧
    ((∀ m, beh (a + 1) m = CmdOutcome.exitCode 0) →
      (runAttempt job st.os_environ beh (a + 1)).1 = AttemptOutcome.ok ∧
      (runAttempt job st.os_environ beh (a + 1)).2 =
        evRunList (a + 1) (mergeEnv st.os_environ job.environment) 0 job.commands) := by
  have hrc := runCmds_fail_prefix (mergeEnv st.os_environ job.environment) (beh a) a k hk
      j job.commands 0 hj (by intro m hm; simpa using hpre m hm) (by simpa using hfail)
  have hfa : (runAttempt job st.os_environ beh a).1 = AttemptOutcome.failed := by
    unfold runAttempt
    rw [hrc]
  have hev : (runAttempt job st.os_environ beh a).2 =
      evRunList a (mergeEnv st.os_environ job.environment) 0 (job.commands.take (j + 1)) := by
    unfold runAttempt
    rw [hrc]
  refine ⟨hfa, hev, ?_, ?_⟩
  · rw [execFrom_eq_failed_succ _ _ _ _ _ hfa]
  · intro hall
    have hrc2 := runCmds_all_zero (mergeEnv st.os_environ job.environment) (beh (a + 1))
        (a + 1) job.commands 0 (by intro m; simpa using hall m)
    constructor
    · unfold runAttempt
      rw [hrc2]
    · unfold runAttempt
      rw [hrc2]

/-- Witness for C6: a three-command job fails at command index 1 of
attempt 0 and fully succeeds on attempt 1. -/
theorem C6_short_circuit_backoff_witness :
    (runAttempt ⟨"w6", PipelineStage.build, ["a", "b", "c"], [], none, 15, 2⟩ []
        (fun a i => if a = 0 ∧ 1 ≤ i then CmdOutcome.exitCode 1 else CmdOutcome.exitCode 0)
        0).1 = AttemptOutcome.failed ∧
    (runAttempt ⟨"w6", PipelineStage.build, ["a", "b", "c"], [], none, 15, 2⟩ []
        (fun a i => if a = 0 ∧ 1 ≤ i then CmdOutcome.exitCode 1 else CmdOutcome.exitCode 0)
        (0 + 1)).1 = AttemptOutcome.ok := by
  have h := C6_short_circuit_backoff ⟨[], []⟩
      ⟨"w6", PipelineStage.build, ["a", "b", "c"], [], none, 15, 2⟩
      (fun a i => if a = 0 ∧ 1 ≤ i then CmdOutcome.exitCode 1 else CmdOutcome.exitCode 0)
      0 1 1 1 (by decide) (by decide)
      (by
        intro m hm
        have hm0 : m = 0 := by omega
        subst hm0
        decide)
      (by decide)
  exact ⟨h.1, (h.2.2.2 (by intro m; simp)).1⟩

/-- C8: for every mode of both command-line entry points, the process
exit code is 0 exactly when the selected operation completes
successfully or the run is interrupted by the user, and 1 exactly when
the operation reports failure or an exception escapes; no other exit
code occurs. -/
theorem C8_exit_codes (mode : RdlMode) (op : Except PyErr Bool) (w : Except PyErr Unit)
    (nmode : NitsMode) (v i b d : Except PyErr Bool) :
    (rdl_main_exit mode op w = 0 ∨ rdl_main_exit mode op w = 1) ∧
    (rdl_main_exit mode op w = 0 ↔
      rdlOpResult mode op w = Except.ok true ∨
      rdlOpResult mode op w = Except.error PyErr.keyboardInterrupt) ∧
    (rdl_main_exit mode op w = 1 ↔
      rdlOpResult mode op w = Except.ok false ∨
      rdlOpResult mode op w = Except.error PyErr.exception) ∧
    (nits_main_exit nmode v i b d = 0 ↔
      nitsOpResult nmode v i b d = Except.ok true ∨
      nitsOpResult nmode v i b d = Except.error PyErr.keyboardInterrupt) ∧
    (nits_main_exit nmode v i b d = 1 ↔
      nitsOpResult nmode v i b d = Except.ok false ∨
      nitsOpResult nmode v i b d = Except.error PyErr.exception) :=
  ⟨mainExitOf_zero_or_one _, mainExitOf_zero_iff _, mainExitOf_one_iff _,
   mainExitOf_zero_iff _, mainExitOf_one_iff _⟩

/-- Witness for C8: validate-only mode with a successful validation
exits with 0. -/
theorem C8_exit_codes_witness :
    rdl_main_exit RdlMode.validateOnly (Except.ok true) (Except.ok ()) = 0 :=
  (C8_exit_codes RdlMode.validateOnly (Except.ok true) (Except.ok ())
    NitsMode.buildOnly (Except.ok true) (Except.ok true) (Except.ok true)
    (Except.ok true)).2.1.mpr (Or.inl rfl)

/-- C10: with auto_deploy disabled, no deploy job is ever built,
requesting the deploy stage alongside validate and build yields exactly
the validate and build jobs, and with all commands succeeding the
pipeline reports overall success having recorded only those two
jobs. -/
theorem C10_deploy_gating (config : PipelineConfig) (stages : List PipelineStage)
    (h : config.auto_deploy = false) :
    (∀ j ∈ buildJobs config stages, j.stage ≠ PipelineStage.deploy) ∧
    buildJobs config [PipelineStage.validate, PipelineStage.build, PipelineStage.deploy] =
      [validationJob, buildApplicationJob] ∧
    (run_pipeline config [PipelineStage.validate, PipelineStage.build, PipelineStage.deploy]
        (fun _ _ _ => CmdOutcome.exitCode 0) ⟨[], []⟩).overall = true ∧
    (run_pipeline config [PipelineStage.validate, PipelineStage.build, PipelineStage.deploy]
        (fun _ _ _ => CmdOutcome.exitCode 0) ⟨[], []⟩).state.job_results =
      [("Environment Validation", true), ("Build Application", true)] := by
  have hjobs : buildJobs config
      [PipelineStage.validate, PipelineStage.build, PipelineStage.deploy] =
      [validationJob, buildApplicationJob] := by
    simp [buildJobs, h]
  refine ⟨?_, hjobs, ?_, ?_⟩
  · intro j hj
    have hC : (if PipelineStage.deploy ∈ stages ∧ config.auto_deploy = true then
        [deployJob config.environment] else ([] : List PipelineJob)) = [] := by
      rw [if_neg (by simp [h])]
    unfold buildJobs at hj
    rw [hC, List.append_nil] at hj
    rcases List.mem_append.mp hj with hj1 | hj1
    · by_cases h1 : PipelineStage.validate ∈ stages
      · rw [if_pos h1] at hj1
        have : j = validationJob := by simpa using hj1
        subst this
        decide
      · rw [if_neg h1] at hj1
        simp at hj1
    · by_cases h1 : PipelineStage.build ∈ stages
      · rw [if_pos h1] at hj1
        have : j = buildApplicationJob := by simpa using hj1
        subst this
        decide
      · rw [if_neg h1] at hj1
        simp at hj1
  · simp only [run_pipeline, hjobs]
    decide
  · simp only [run_pipeline, hjobs]
    decide

/-- Witness for C10 at the default configuration, whose auto_deploy is
false. -/
theorem C10_deploy_gating_witness :
    buildJobs {} [PipelineStage.validate, PipelineStage.build, PipelineStage.deploy] =
      [validationJob, buildApplicationJob] ∧
    (run_pipeline {} [PipelineStage.validate, PipelineStage.build, PipelineStage.deploy]
        (fun _ _ _ => CmdOutcome.exitCode 0) ⟨[], []⟩).overall = true := by
  have h := C10_deploy_gating {}
      [PipelineStage.validate, PipelineStage.build, PipelineStage.deploy] rfl
  exact ⟨h.2.1, h.2.2.1⟩
